import Mathlib

/-!
Verification of the repair → validate → normalize property-ETL pipeline.

The development shallowly embeds the pipeline's core functions:
* the rule-based JSON text-repair engine (`repair_bareword_values` and its
  five single-pass rewrite rules, from `src/etl/preprocess.py`),
* the per-field schema coercion helpers of the `Property` model and its
  child records (from `src/models/property.py`),
* the batch validation loop (from `src/etl/extract.py`),
* the denormalizer and dimension extractor (from `src/etl/transform.py`).

Numeric values are modelled as `Rat`: every concrete value the claims touch
is an integer or a short decimal, where Python float arithmetic is exact.
Character classes are the ASCII classes used by the source regexes; `\s`
is Python's six-character whitespace class.
-/

namespace ETL

/-- Generic parsed JSON value tree: the intermediate representation between
the repair engine and schema validation. -/
inductive JValue where
  | null : JValue
  | bool (b : Bool) : JValue
  | num (q : Rat) : JValue
  | str (s : String) : JValue
  | arr (xs : List JValue) : JValue
  | obj (fields : List (String × JValue)) : JValue

/-- Python's `\s` class for `str` patterns, restricted to ASCII:
space, tab, newline, carriage return, vertical tab, form feed. -/
def isPySpace (c : Char) : Bool :=
  c = ' ' || c = '\x09' || c = '\x0a' || c = '\x0d' || c = '\x0b' || c = '\x0c'

/-- The `[,\x7d]` delimiter class of the bareword, number-with-unit and
bare-number patterns. -/
def isDelimCB (c : Char) : Bool := c = ',' || c = '\x7d'

/-- The `[\x7d\]]` class of the trailing-comma pattern. -/
def isCloseCB (c : Char) : Bool := c = '\x7d' || c = ']'

/-- First character of a bare identifier key: `[a-zA-Z_]`. -/
def isIdentStart (c : Char) : Bool := c.isAlpha || c = '_'

/-- Subsequent characters of a bare identifier key: `[a-zA-Z0-9_]`. -/
def isWordChar (c : Char) : Bool := c.isAlphanum || c = '_'

/-- Python `str.strip()` on the ASCII whitespace class. -/
def pyStrip (s : String) : String :=
  String.mk (((s.data.dropWhile isPySpace).reverse.dropWhile isPySpace).reverse)

/-- Python `str.upper()` on ASCII letters. -/
def pyUpper (s : String) : String := String.mk (s.data.map Char.toUpper)

/-- Python `str.lower()` on ASCII letters. -/
def pyLower (s : String) : String := String.mk (s.data.map Char.toLower)

/-- Python `str.isdigit()` restricted to ASCII digits. -/
def pyIsdigit (s : String) : Bool := !s.data.isEmpty && s.data.all Char.isDigit

/-- Modelled from the spec: the external `word2number` lookup used by
`try_convert_number_word` ("a spelled-out number word ... replaced by its
digit string").  The library itself is not part of the repository; this
table covers the single-word English numerals a single bareword token can
denote. -/
def wordNumTable : List (String × Nat) :=
  [("zero", 0), ("one", 1), ("two", 2), ("three", 3), ("four", 4),
   ("five", 5), ("six", 6), ("seven", 7), ("eight", 8), ("nine", 9),
   ("ten", 10), ("eleven", 11), ("twelve", 12), ("thirteen", 13),
   ("fourteen", 14), ("fifteen", 15), ("sixteen", 16), ("seventeen", 17),
   ("eighteen", 18), ("nineteen", 19), ("twenty", 20), ("thirty", 30),
   ("forty", 40), ("fifty", 50), ("sixty", 60), ("seventy", 70),
   ("eighty", 80), ("ninety", 90), ("hundred", 100), ("thousand", 1000),
   ("million", 1000000), ("billion", 1000000000)]

/-- Lookup `word2number.w2n.word_to_num` on a single lowercased word. -/
def word_to_num (w : String) : Option Nat :=
  (wordNumTable.find? (fun p => p.1 = w)).map (fun p => p.2)

/-- Function `try_convert_number_word`: convert an English number word to its digit
string; on failure return the word unchanged. -/
def try_convert_number_word (word : String) : String :=
  if word = "" then word
  else
    match word_to_num (pyLower word) with
    | some n => toString n
    | none => word

/-- A single-rule matcher: given the text at the current position, either
`none` (no match here) or `some (replacement, fixes, consumed)` where
`consumed ≥ 1` is the length of the matched prefix. -/
def Matcher : Type := List Char → Option (List Char × List String × Nat)

/-- One global left-to-right substitution pass (the semantics of a single
`re.sub` call): try the matcher at each position; on a match, emit the
replacement and resume after the matched region.  `fuel` bounds the number
of steps; every matcher below consumes at least its leading literal
character, so `fuel = length` is never exhausted. -/
def runPassFuel (m : Matcher) : Nat → List Char → List Char × List String
  | 0, s => (s, [])
  | _ + 1, [] => ([], [])
  | fuel + 1, c :: cs =>
    match m (c :: cs) with
    | some (repl, fs, n) =>
      let rest := runPassFuel m fuel ((c :: cs).drop n)
      (repl ++ rest.1, fs ++ rest.2)
    | none =>
      let rest := runPassFuel m fuel cs
      (c :: rest.1, rest.2)

/-- One `re.sub` call for one rewrite rule, with its fix log. -/
def runPass (m : Matcher) (s : String) : String × List String :=
  let r := runPassFuel m s.data.length s.data
  (String.mk r.1, r.2)

/-- Whether the rule's pattern matches anywhere in the text. -/
def hasMatchAux (m : Matcher) : List Char → Bool
  | [] => false
  | c :: cs => (m (c :: cs)).isSome || hasMatchAux m cs

/-- Matcher for `:\s*([A-Z][a-zA-Z]*)\s*([,\x7d])` with the replacement
logic of `fix_any_bareword`: reserved words `true`/`false`/`null` are left
as `group(0)` with no fix; recognized number words become digits; any other
bareword is quoted. -/
def matchBareword : Matcher := fun s =>
  match s with
  | ':' :: rest =>
    let ws1 := rest.takeWhile isPySpace
    let r1 := rest.dropWhile isPySpace
    match r1 with
    | c :: r2 =>
      if c.isUpper then
        let letters := r2.takeWhile Char.isAlpha
        let r3 := r2.dropWhile Char.isAlpha
        let ws2 := r3.takeWhile isPySpace
        let r4 := r3.dropWhile isPySpace
        match r4 with
        | d :: _ =>
          if isDelimCB d then
            let word := String.mk (c :: letters)
            let n := 1 + ws1.length + (1 + letters.length) + ws2.length + 1
            if pyLower word ∈ (["true", "false", "null"] : List String) then
              some (s.take n, [], n)
            else
              let conv := try_convert_number_word word
              if conv ≠ word && pyIsdigit conv then
                some ((": " ++ conv).data ++ [d],
                  ["Converted number word to digit: " ++ word ++ " → " ++ conv], n)
              else
                some ((": \"" ++ word ++ "\"").data ++ [d],
                  ["Quoted bareword: " ++ word], n)
          else none
        | [] => none
      else none
    | [] => none
  | _ => none

/-- Matcher for `:\s*(\d+(?:\.\d+)?)\s+([a-z]+)\s*([,\x7d])` with the
replacement of `fix_number_unit`. -/
def matchNumberUnit : Matcher := fun s =>
  match s with
  | ':' :: rest =>
    let ws1 := rest.takeWhile isPySpace
    let r1 := rest.dropWhile isPySpace
    let intDigits := r1.takeWhile Char.isDigit
    let r2 := r1.dropWhile Char.isDigit
    if intDigits.isEmpty then none
    else
      let fracSplit : List Char × List Char :=
        match r2 with
        | '.' :: r2' =>
          let fds := r2'.takeWhile Char.isDigit
          if fds.isEmpty then ([], r2) else ('.' :: fds, r2'.dropWhile Char.isDigit)
        | _ => ([], r2)
      let ws2 := fracSplit.2.takeWhile isPySpace
      let r4 := fracSplit.2.dropWhile isPySpace
      if ws2.isEmpty then none
      else
        let unit := r4.takeWhile Char.isLower
        let r5 := r4.dropWhile Char.isLower
        if unit.isEmpty then none
        else
          let ws3 := r5.takeWhile isPySpace
          let r6 := r5.dropWhile isPySpace
          match r6 with
          | d :: _ =>
            if isDelimCB d then
              let number := String.mk (intDigits ++ fracSplit.1)
              let unitS := String.mk unit
              let n := 1 + ws1.length + intDigits.length + fracSplit.1.length
                + ws2.length + unit.length + ws3.length + 1
              some ((": \"" ++ number ++ " " ++ unitS ++ "\"").data ++ [d],
                ["Quoted number with unit: " ++ number ++ " " ++ unitS], n)
            else none
          | [] => none
  | _ => none

/-- Matcher for `,\s*([\x7d\]])` with the replacement of
`fix_trailing_comma`: the whole match becomes just the closing delimiter. -/
def matchTrailingComma : Matcher := fun s =>
  match s with
  | ',' :: rest =>
    let ws := rest.takeWhile isPySpace
    let r1 := rest.dropWhile isPySpace
    match r1 with
    | d :: _ =>
      if isCloseCB d then
        some ([d], ["Removed trailing comma before " ++ String.mk [d]],
          1 + ws.length + 1)
      else none
    | [] => none
  | _ => none

/-- Matcher for `\x7b\s*([a-zA-Z_][a-zA-Z0-9_]*)\s*:` with the replacement
of `fix_unquoted_key`.  The replacement reproduces the source f-string
`'\x7b\x7b""\x7bkey\x7d":'` verbatim: an opening brace, two double
quotes, the bare key, one closing quote, and the colon. -/
def matchUnquotedKey : Matcher := fun s =>
  match s with
  | '\x7b' :: rest =>
    let ws := rest.takeWhile isPySpace
    let r1 := rest.dropWhile isPySpace
    match r1 with
    | c :: r2 =>
      if isIdentStart c then
        let tailChars := r2.takeWhile isWordChar
        let r3 := r2.dropWhile isWordChar
        let ws2 := r3.takeWhile isPySpace
        let r4 := r3.dropWhile isPySpace
        match r4 with
        | ':' :: _ =>
          let key := String.mk (c :: tailChars)
          let n := 1 + ws.length + (1 + tailChars.length) + ws2.length + 1
          some ('\x7b' :: '"' :: '"' :: (key.data ++ ['"', ':']),
            ["Quoted unquoted key: " ++ key], n)
        | _ => none
      else none
    | [] => none
  | _ => none

/-- Matcher for `,\s*(\d+)\s*([,\x7d])` with the replacement of
`fix_bare_number`: the whole match (the leading comma and the number)
collapses to just the trailing delimiter. -/
def matchBareNumber : Matcher := fun s =>
  match s with
  | ',' :: rest =>
    let ws := rest.takeWhile isPySpace
    let digits := (rest.dropWhile isPySpace).takeWhile Char.isDigit
    let r2 := (rest.dropWhile isPySpace).dropWhile Char.isDigit
    if digits.isEmpty then none
    else
      let ws2 := r2.takeWhile isPySpace
      let r3 := r2.dropWhile isPySpace
      match r3 with
      | d :: _ =>
        if isDelimCB d then
          some ([d], ["Removed bare number in object: " ++ String.mk digits],
            1 + ws.length + digits.length + ws2.length + 1)
        else none
      | [] => none
  | _ => none

/-- Rule 1 of `repair_bareword_values`: barewords after a colon. -/
def fix_any_bareword (s : String) : String × List String := runPass matchBareword s

/-- Rule 2: a bare number with a trailing lowercase unit is re-quoted. -/
def fix_number_unit (s : String) : String × List String := runPass matchNumberUnit s

/-- Rule 3: trailing commas before a closing brace/bracket are removed. -/
def fix_trailing_comma (s : String) : String × List String := runPass matchTrailingComma s

/-- Rule 4: an object key written as a bare identifier after an opening
brace is (intended to be) quoted. -/
def fix_unquoted_key (s : String) : String × List String := runPass matchUnquotedKey s

/-- Rule 5: a bare numeric token between a comma and a following delimiter
is deleted. -/
def fix_bare_number (s : String) : String × List String := runPass matchBareNumber s

/-- Function `repair_bareword_values`: the five rewrite rules applied in order, with
the concatenated fix log. -/
def repair_bareword_values (s : String) : String × List String :=
  let r1 := fix_any_bareword s
  let r2 := fix_number_unit r1.1
  let r3 := fix_trailing_comma r2.1
  let r4 := fix_unquoted_key r3.1
  let r5 := fix_bare_number r4.1
  (r5.1, r1.2 ++ r2.2 ++ r3.2 ++ r4.2 ++ r5.2)

lemma runPassFuel_no_match (m : Matcher) :
    ∀ (s : List Char), hasMatchAux m s = false → ∀ fuel, runPassFuel m fuel s = (s, []) := by
  intro s
  induction s with
  | nil =>
    intro _ fuel
    cases fuel <;> rfl
  | cons c cs ih =>
    intro h fuel
    rw [hasMatchAux] at h
    simp only [Bool.or_eq_false_iff] at h
    obtain ⟨h1, h2⟩ := h
    cases fuel with
    | zero => rfl
    | succ fuel =>
      rw [runPassFuel]
      cases hm : m (c :: cs) with
      | some v => rw [hm] at h1; simp at h1
      | none => simp only [hm, ih h2 fuel]

lemma runPass_no_match (m : Matcher) (s : String) (h : hasMatchAux m s.data = false) :
    runPass m s = (s, []) := by
  unfold runPass
  rw [runPassFuel_no_match m s.data h]

/-! ### Schema coercion layer (`src/models/property.py`) -/

/-- Value of a digit string. -/
def natOfDigits (cs : List Char) : Nat :=
  cs.foldl (fun n c => n * 10 + (c.toNat - '0'.toNat)) 0

/-- Python `float(str)` on a candidate numeric string made of digits and
decimal points: defined exactly when the string has at most one `.` and at
least one digit (so `"5."`, `".5"`, `"5649"` parse; `""`, `"."`, `"1.2.3"`
raise `ValueError`, i.e. `none`). -/
def parsePyFloat (cs : List Char) : Option Rat :=
  if cs.any (fun c => !(c.isDigit || c = '.')) then none
  else if 1 < cs.count '.' then none
  else if cs.all (fun c => c = '.') then none
  else
    let intPart := cs.takeWhile Char.isDigit
    let rest := cs.dropWhile Char.isDigit
    match rest with
    | [] => some (natOfDigits intPart)
    | _ :: frac => some ((natOfDigits intPart : Rat) + (natOfDigits frac : Rat) / (10 ^ frac.length))

/-- Validator `Property.clean_sqft_total` (a `mode="before"` validator attached only
to the `sqft_total` field): `None` passes through; a string is stripped to
its digit/decimal-point characters and parsed as a float, with failures
(including the empty remainder) coercing to `None`; any other value goes
through `float(v)`, with `ValueError`/`TypeError` caught as `None`
(`float(True) = 1.0`, `float(<list or dict>)` raises `TypeError`). -/
def clean_sqft_total : JValue → Option Rat
  | .null => none
  | .str s =>
    let numeric := s.data.filter (fun c => c.isDigit || c = '.')
    if numeric.isEmpty then none else parsePyFloat numeric
  | .num q => some q
  | .bool b => some (if b then 1 else 0)
  | .arr _ => none
  | .obj _ => none

/-- Validator `HOARecord.validate_flag` (a `mode="before"` validator on `hoa_flag`):
`None` stays absent; a string is stripped and uppercased and kept only if
it lands in `["YES", "NO"]`; everything else coerces to `None`. -/
def validate_flag : JValue → Option String
  | .null => none
  | .str s =>
    let v_upper := pyUpper (pyStrip s)
    if v_upper ∈ (["YES", "NO"] : List String) then some v_upper else none
  | _ => none

/-- Validator `RehabRecord.normalize_flags`, applied to the ten rehab condition
flags; the body is identical to `HOARecord.validate_flag`. -/
def normalize_flags : JValue → Option String
  | .null => none
  | .str s =>
    let v_upper := pyUpper (pyStrip s)
    if v_upper ∈ (["YES", "NO"] : List String) then some v_upper else none
  | _ => none

/-- Validator `Property.normalize_yes_no_flags` (a `mode="before"` validator on
`rent_restricted`, `pool`, `commercial`, `htw`): `None` stays `None`; a
string whose stripped uppercase form is `YES`/`NO` becomes that canonical
token; ANY OTHER VALUE IS RETURNED UNCHANGED (the function falls through
to `return v`). -/
def normalize_yes_no_flags : JValue → JValue
  | .null => .null
  | .str s =>
    let v_upper := pyUpper (pyStrip s)
    if v_upper ∈ (["YES", "NO"] : List String) then .str v_upper else .str s
  | v => v

/-- Pydantic's check of a field annotated `Optional[str]`, applied to the
output of a `mode="before"` validator: `None` and strings pass, any other
type is a field error. -/
def coerceOptStr : JValue → Except String (Option String)
  | .null => .ok none
  | .str s => .ok (some s)
  | _ => .error "string_type"

/-- Pydantic's lax string→float coercion (documented library behavior):
the whole stripped string must be a float literal (optional sign, digits
with at most one decimal point); anything else is a `float_parsing`
error.  In particular `"5649 sqft"` does NOT parse. -/
def pydanticFloatOfStr (s : String) : Option Rat :=
  match (pyStrip s).data with
  | '-' :: r => (parsePyFloat r).map (fun q => -q)
  | '+' :: r => parsePyFloat r
  | r => parsePyFloat r

/-- Coercion applied by the schema layer to the `taxes` field: the source
declares `taxes: Optional[float]` with NO custom validator, so pydantic's
lax coercion applies — numeric literals pass through, strings must parse
as a plain float literal, and other types are field errors. -/
def validateTaxes : JValue → Except String (Option Rat)
  | .null => .ok none
  | .num q => .ok (some q)
  | .str s =>
    match pydanticFloatOfStr s with
    | some q => .ok (some q)
    | none => .error "float_parsing"
  | _ => .error "float_type"

/-! ### Validated data model (`src/models/property.py`) -/

/-- Record `ValuationRecord`: a point-in-time valuation snapshot. -/
structure ValuationRecord where
  list_price : Option Rat := none
  previous_rent : Option Rat := none
  arv : Option Rat := none
  rent_zestimate : Option Rat := none
  low_fmr : Option Rat := none
  high_fmr : Option Rat := none
  zestimate : Option Rat := none
  expected_rent : Option Rat := none
  redfin_value : Option Rat := none
deriving DecidableEq

/-- Record `HOARecord`: homeowner-association fee amount and tri-state flag. -/
structure HOARecord where
  hoa_amount : Option Rat := none
  hoa_flag : Option String := none
deriving DecidableEq

/-- Record `RehabRecord`: rehab cost estimates, paint free text, condition flags. -/
structure RehabRecord where
  underwriting_rehab : Option Rat := none
  rehab_calculation : Option Rat := none
  paint : Option String := none
  flooring_flag : Option String := none
  foundation_flag : Option String := none
  roof_flag : Option String := none
  hvac_flag : Option String := none
  kitchen_flag : Option String := none
  bathroom_flag : Option String := none
  appliances_flag : Option String := none
  windows_flag : Option String := none
  landscaping_flag : Option String := none
  trashout_flag : Option String := none
deriving DecidableEq

/-- Record `Property`: the validated main entity.  Field defaults mirror the
pydantic declarations (`Field(None, ...)` / `default_factory=list`); the
nine non-defaulted fields are the required ones. -/
structure Property where
  property_title : String
  address : String
  street_address : String
  city : String
  state : String
  zip_code : String
  latitude : Rat
  longitude : Rat
  property_type : String
  year_built : Option Int := none
  sqft_total : Option Rat := none
  sqft_basement : Option Rat := none
  sqft_mu : Option Rat := none
  bed : Option Int := none
  bath : Option Int := none
  layout : Option String := none
  pool : Option String := none
  parking : Option String := none
  basement_yes_no : Option String := none
  water : Option String := none
  sewage : Option String := none
  htw : Option String := none
  commercial : Option String := none
  highway : Option String := none
  train : Option String := none
  flood : Option String := none
  occupancy : Option String := none
  net_yield : Option Rat := none
  irr : Option Rat := none
  taxes : Option Rat := none
  tax_rate : Option Rat := none
  market : Option String := none
  source : Option String := none
  neighborhood_rating : Option Int := none
  school_average : Option Rat := none
  subdivision : Option String := none
  reviewed_status : Option String := none
  most_recent_status : Option String := none
  selling_reason : Option String := none
  final_reviewer : Option String := none
  seller_retained_broker : Option String := none
  rent_restricted : Option String := none
  valuation : List ValuationRecord := []
  hoa : List HOARecord := []
  rehab : List RehabRecord := []
deriving DecidableEq

/-! ### Denormalizer (`src/etl/transform.py`) -/

/-- One row of `facts["properties"]` — the scalar fields copied off the
`Property` (the row carries no id; its surrogate key is its 1-based
position in the list). -/
structure PropertyRow where
  property_title : String
  address : String
  street_address : String
  city : String
  state : String
  zip_code : String
  latitude : Rat
  longitude : Rat
  property_type : String
  year_built : Option Int := none
  sqft_total : Option Rat := none
  sqft_basement : Option Rat := none
  sqft_mu : Option Rat := none
  bed : Option Int := none
  bath : Option Int := none
  layout : Option String := none
  pool : Option String := none
  parking : Option String := none
  basement_yes_no : Option String := none
  water : Option String := none
  sewage : Option String := none
  htw : Option String := none
  commercial : Option String := none
  highway : Option String := none
  train : Option String := none
  flood : Option String := none
  occupancy : Option String := none
  net_yield : Option Rat := none
  irr : Option Rat := none
  taxes : Option Rat := none
  tax_rate : Option Rat := none
  market : Option String := none
  source : Option String := none
  neighborhood_rating : Option Int := none
  school_average : Option Rat := none
  subdivision : Option String := none
  reviewed_status : Option String := none
  most_recent_status : Option String := none
  selling_reason : Option String := none
  final_reviewer : Option String := none
  seller_retained_broker : Option String := none
  rent_restricted : Option String := none
deriving DecidableEq

/-- One row of `facts["valuations"]`. -/
structure ValuationRow where
  property_id : Nat
  valuation_index : Nat
  list_price : Option Rat := none
  previous_rent : Option Rat := none
  arv : Option Rat := none
  rent_zestimate : Option Rat := none
  low_fmr : Option Rat := none
  high_fmr : Option Rat := none
  zestimate : Option Rat := none
  expected_rent : Option Rat := none
  redfin_value : Option Rat := none
deriving DecidableEq

/-- One row of `facts["hoa_fees"]`. -/
structure HoaRow where
  property_id : Nat
  hoa_index : Nat
  hoa_amount : Option Rat := none
  hoa_flag : Option String := none
deriving DecidableEq

/-- One row of `facts["rehab_assessments"]`. -/
structure RehabRow where
  property_id : Nat
  rehab_index : Nat
  underwriting_rehab : Option Rat := none
  rehab_calculation : Option Rat := none
  paint : Option String := none
  flooring_flag : Option String := none
  foundation_flag : Option String := none
  roof_flag : Option String := none
  hvac_flag : Option String := none
  kitchen_flag : Option String := none
  bathroom_flag : Option String := none
  appliances_flag : Option String := none
  windows_flag : Option String := none
  landscaping_flag : Option String := none
  trashout_flag : Option String := none
deriving DecidableEq

/-- The four row lists of the fact row set. -/
structure Facts where
  properties : List PropertyRow := []
  valuations : List ValuationRow := []
  hoa_fees : List HoaRow := []
  rehab_assessments : List RehabRow := []
deriving DecidableEq

/-- The `property_row` dict built in the loop body. -/
def property_to_row (p : Property) : PropertyRow :=
  { property_title := p.property_title, address := p.address,
    street_address := p.street_address, city := p.city, state := p.state,
    zip_code := p.zip_code, latitude := p.latitude, longitude := p.longitude,
    property_type := p.property_type, year_built := p.year_built,
    sqft_total := p.sqft_total, sqft_basement := p.sqft_basement,
    sqft_mu := p.sqft_mu, bed := p.bed, bath := p.bath, layout := p.layout,
    pool := p.pool, parking := p.parking, basement_yes_no := p.basement_yes_no,
    water := p.water, sewage := p.sewage, htw := p.htw,
    commercial := p.commercial, highway := p.highway, train := p.train,
    flood := p.flood, occupancy := p.occupancy, net_yield := p.net_yield,
    irr := p.irr, taxes := p.taxes, tax_rate := p.tax_rate,
    market := p.market, source := p.source,
    neighborhood_rating := p.neighborhood_rating,
    school_average := p.school_average, subdivision := p.subdivision,
    reviewed_status := p.reviewed_status,
    most_recent_status := p.most_recent_status,
    selling_reason := p.selling_reason, final_reviewer := p.final_reviewer,
    seller_retained_broker := p.seller_retained_broker,
    rent_restricted := p.rent_restricted }

/-- The `valuation_row` dict: surrogate key plus 1-based local index. -/
def valuation_to_row (pid idx : Nat) (v : ValuationRecord) : ValuationRow :=
  { property_id := pid, valuation_index := idx, list_price := v.list_price,
    previous_rent := v.previous_rent, arv := v.arv,
    rent_zestimate := v.rent_zestimate, low_fmr := v.low_fmr,
    high_fmr := v.high_fmr, zestimate := v.zestimate,
    expected_rent := v.expected_rent, redfin_value := v.redfin_value }

/-- The `hoa_row` dict. -/
def hoa_to_row (pid idx : Nat) (h : HOARecord) : HoaRow :=
  { property_id := pid, hoa_index := idx, hoa_amount := h.hoa_amount,
    hoa_flag := h.hoa_flag }

/-- The `rehab_row` dict. -/
def rehab_to_row (pid idx : Nat) (r : RehabRecord) : RehabRow :=
  { property_id := pid, rehab_index := idx,
    underwriting_rehab := r.underwriting_rehab,
    rehab_calculation := r.rehab_calculation, paint := r.paint,
    flooring_flag := r.flooring_flag, foundation_flag := r.foundation_flag,
    roof_flag := r.roof_flag, hvac_flag := r.hvac_flag,
    kitchen_flag := r.kitchen_flag, bathroom_flag := r.bathroom_flag,
    appliances_flag := r.appliances_flag, windows_flag := r.windows_flag,
    landscaping_flag := r.landscaping_flag, trashout_flag := r.trashout_flag }

/-- The child rows emitted for one property: `enumerate` over its
valuation list with `val_idx + 1` as the 1-based index. -/
def val_rows_of (pid : Nat) (p : Property) : List ValuationRow :=
  p.valuation.enum.map (fun jv => valuation_to_row pid (jv.1 + 1) jv.2)

/-- The HOA child rows emitted for one property. -/
def hoa_rows_of (pid : Nat) (p : Property) : List HoaRow :=
  p.hoa.enum.map (fun jh => hoa_to_row pid (jh.1 + 1) jh.2)

/-- The rehab child rows emitted for one property. -/
def rehab_rows_of (pid : Nat) (p : Property) : List RehabRow :=
  p.rehab.enum.map (fun jr => rehab_to_row pid (jr.1 + 1) jr.2)

/-- One iteration of the `for property_obj in properties` loop: append the
property row, read off `property_id = len(facts["properties"])` (i.e. the
1-based position just assigned), then append the child rows. -/
def transform_step (facts : Facts) (p : Property) : Facts :=
  let properties' := facts.properties ++ [property_to_row p]
  let property_id := properties'.length
  { properties := properties',
    valuations := facts.valuations ++ val_rows_of property_id p,
    hoa_fees := facts.hoa_fees ++ hoa_rows_of property_id p,
    rehab_assessments := facts.rehab_assessments ++ rehab_rows_of property_id p }

/-- Function `transform_properties_to_facts`: single input-order pass over the
validated properties, starting from the four empty row lists. -/
def transform_properties_to_facts (properties : List Property) : Facts :=
  properties.foldl transform_step {}

/-! ### Dimension extractor (`src/etl/transform.py`) -/

/-- The four distinct-value sets. -/
structure Dimensions where
  markets : Finset String := ∅
  sources : Finset String := ∅
  property_types : Finset String := ∅
  layouts : Finset String := ∅
deriving DecidableEq

/-- One iteration of the dimension loop: each of the four fields is added
to its set when present and non-empty (`if prop.get(...)` — Python
truthiness makes both `None` and `""` skip). -/
def dim_step (dims : Dimensions) (row : PropertyRow) : Dimensions :=
  let d1 := match row.market with
    | some s => if s ≠ "" then { dims with markets := insert s dims.markets } else dims
    | none => dims
  let d2 := match row.source with
    | some s => if s ≠ "" then { d1 with sources := insert s d1.sources } else d1
    | none => d1
  let d3 :=
    if row.property_type ≠ "" then
      { d2 with property_types := insert row.property_type d2.property_types }
    else d2
  let d4 := match row.layout with
    | some s => if s ≠ "" then { d3 with layouts := insert s d3.layouts } else d3
    | none => d3
  d4

/-- Function `extract_dimension_values`: fold the dimension step over the
`properties` rows only. -/
def extract_dimension_values (facts : Facts) : Dimensions :=
  facts.properties.foldl dim_step {}

/-! ### Batch validation loop (`src/etl/extract.py`) -/

/-- The failure dict appended to `invalid_records`: 1-based record index,
the raw record, and the validation errors. -/
structure InvalidRecord (α ε : Type _) where
  record_index : Nat
  raw_record : α
  errors : ε
deriving DecidableEq

instance {ε β : Type _} [DecidableEq ε] [DecidableEq β] : DecidableEq (Except ε β) :=
  fun x y =>
    match x, y with
    | .ok a, .ok b =>
      if h : a = b then isTrue (by rw [h])
      else isFalse (by intro hh; injection hh; contradiction)
    | .error a, .error b =>
      if h : a = b then isTrue (by rw [h])
      else isFalse (by intro hh; injection hh; contradiction)
    | .ok _, .error _ => isFalse (fun hh => Except.noConfusion hh)
    | .error _, .ok _ => isFalse (fun hh => Except.noConfusion hh)

/-- Mirror of `Except.toOption`. -/
def exceptToOption : Except ε β → Option β
  | .ok b => some b
  | .error _ => none

/-- Whether validation succeeded. -/
def exceptIsOk : Except ε β → Bool
  | .ok _ => true
  | .error _ => false

/-- The `for idx, raw_record in enumerate(raw_data, 1)` loop of
`load_properties_from_json`: validation success appends to the valid list;
a failure appends the failure dict and, when `skip_invalid` is false,
re-raises the validation error (modelled as `Except.error`). -/
def processRecords (validate : α → Except ε β) (skip_invalid : Bool) :
    Nat → List α → List β → List (InvalidRecord α ε) →
    Except ε (List β × List (InvalidRecord α ε))
  | _, [], valids, invalids => .ok (valids, invalids)
  | idx, r :: rs, valids, invalids =>
    match validate r with
    | .ok p => processRecords validate skip_invalid (idx + 1) rs (valids ++ [p]) invalids
    | .error e =>
      if skip_invalid then
        processRecords validate skip_invalid (idx + 1) rs valids (invalids ++ [⟨idx, r, e⟩])
      else .error e

/-- Function `load_properties_from_json`, from the point where the parsed record
list is in hand (file reading, repair and JSON parsing are the out-of-scope
boundary): truncate to `max_records` when set and non-zero (`if
max_records:` — both `None` and `0` are falsy), then run the loop from
index 1 with empty accumulators.  `validate` stands for
`Property.model_validate`. -/
def load_properties_from_json (validate : α → Except ε β)
    (max_records : Option Nat) (skip_invalid : Bool) (raw_data : List α) :
    Except ε (List β × List (InvalidRecord α ε)) :=
  let data := match max_records with
    | some n => if n = 0 then raw_data else raw_data.take n
    | none => raw_data
  processRecords validate skip_invalid 1 data [] []

/-- The failure entry produced for one enumerated record, if any. -/
def fail_entry (validate : α → Except ε β) (ir : Nat × α) :
    Option (InvalidRecord α ε) :=
  match validate ir.2 with
  | .ok _ => none
  | .error e => some ⟨ir.1, ir.2, e⟩

/-! ### Closed form of the denormalizer -/

/-- Child rows of a list of properties whose surrogate keys start at
`pid`: the group of the first property, then the later groups with keys
shifted up by one. -/
def grouped (f : Nat → Property → List β) : Nat → List Property → List β
  | _, [] => []
  | pid, p :: ps => f pid p ++ grouped f (pid + 1) ps

lemma foldl_transform_step (props : List Property) : ∀ acc : Facts,
    props.foldl transform_step acc =
      { properties := acc.properties ++ props.map property_to_row,
        valuations := acc.valuations ++ grouped val_rows_of (acc.properties.length + 1) props,
        hoa_fees := acc.hoa_fees ++ grouped hoa_rows_of (acc.properties.length + 1) props,
        rehab_assessments := acc.rehab_assessments
          ++ grouped rehab_rows_of (acc.properties.length + 1) props } := by
  induction props with
  | nil =>
    intro acc
    simp [grouped]
  | cons p ps ih =>
    intro acc
    rw [List.foldl_cons, ih]
    simp [transform_step, grouped, List.append_assoc, Nat.add_assoc]

/-- The denormalizer in closed form. -/
lemma transform_closed (props : List Property) :
    transform_properties_to_facts props =
      { properties := props.map property_to_row,
        valuations := grouped val_rows_of 1 props,
        hoa_fees := grouped hoa_rows_of 1 props,
        rehab_assessments := grouped rehab_rows_of 1 props } := by
  unfold transform_properties_to_facts
  rw [foldl_transform_step]
  rfl

lemma grouped_pid_bounds {β : Type _} (f : Nat → Property → List β)
    (pidOf : β → Nat) (hf : ∀ q p b, b ∈ f q p → pidOf b = q) :
    ∀ (props : List Property) (pid : Nat) (b : β), b ∈ grouped f pid props →
      pid ≤ pidOf b ∧ pidOf b < pid + props.length := by
  intro props
  induction props with
  | nil => intro pid b hb; simp [grouped] at hb
  | cons p ps ih =>
    intro pid b hb
    rw [grouped, List.mem_append] at hb
    rcases hb with hb | hb
    · have := hf pid p b hb
      simp [this]
    · have := ih (pid + 1) b hb
      constructor
      · omega
      · simp only [List.length_cons]
        omega

lemma grouped_filter_eq {β : Type _} (f : Nat → Property → List β)
    (pidOf : β → Nat) [DecidableEq β] (hf : ∀ q p b, b ∈ f q p → pidOf b = q) :
    ∀ (props : List Property) (pid i : Nat) (h : i < props.length),
      (grouped f pid props).filter (fun b => pidOf b = pid + i) =
        f (pid + i) (props.get ⟨i, h⟩) := by
  intro props
  induction props with
  | nil => intro pid i h; simp at h
  | cons p ps ih =>
    intro pid i h
    rw [grouped, List.filter_append]
    cases i with
    | zero =>
      have head_all : (f pid p).filter (fun b => pidOf b = pid + 0) = f pid p := by
        rw [List.filter_eq_self]
        intro b hb
        simp [hf pid p b hb]
      have tail_none : (grouped f (pid + 1) ps).filter (fun b => pidOf b = pid + 0) = [] := by
        rw [List.filter_eq_nil_iff]
        intro b hb
        have := grouped_pid_bounds f pidOf hf ps (pid + 1) b hb
        simp only [decide_eq_true_eq]
        omega
      rw [head_all, tail_none, List.append_nil]
      rfl
    | succ i' =>
      have head_none : (f pid p).filter (fun b => pidOf b = pid + (i' + 1)) = [] := by
        rw [List.filter_eq_nil_iff]
        intro b hb
        have := hf pid p b hb
        simp only [decide_eq_true_eq]
        omega
      have h' : i' < ps.length := by
        simp only [List.length_cons] at h
        omega
      have harith : ∀ b : β, (pidOf b = pid + (i' + 1)) = (pidOf b = (pid + 1) + i') := by
        intro b
        have : pid + (i' + 1) = (pid + 1) + i' := by omega
        rw [this]
      have tail_eq :
          (grouped f (pid + 1) ps).filter (fun b => pidOf b = pid + (i' + 1)) =
            f ((pid + 1) + i') (ps.get ⟨i', h'⟩) := by
        have := ih (pid + 1) i' h'
        simp only [harith]
        exact this
      rw [head_none, tail_eq, List.nil_append]
      have : (pid + 1) + i' = pid + (i' + 1) := by omega
      rw [this]
      rfl

lemma val_rows_pid (q : Nat) (p : Property) (b : ValuationRow)
    (hb : b ∈ val_rows_of q p) : b.property_id = q := by
  unfold val_rows_of at hb
  rw [List.mem_map] at hb
  obtain ⟨jv, _, rfl⟩ := hb
  rfl

lemma hoa_rows_pid (q : Nat) (p : Property) (b : HoaRow)
    (hb : b ∈ hoa_rows_of q p) : b.property_id = q := by
  unfold hoa_rows_of at hb
  rw [List.mem_map] at hb
  obtain ⟨jh, _, rfl⟩ := hb
  rfl

lemma rehab_rows_pid (q : Nat) (p : Property) (b : RehabRow)
    (hb : b ∈ rehab_rows_of q p) : b.property_id = q := by
  unfold rehab_rows_of at hb
  rw [List.mem_map] at hb
  obtain ⟨jr, _, rfl⟩ := hb
  rfl

lemma val_rows_of_indices (pid : Nat) (p : Property) :
    (val_rows_of pid p).map (fun r => r.valuation_index) =
      List.range' 1 p.valuation.length := by
  unfold val_rows_of
  rw [List.map_map]
  have : ((fun r : ValuationRow => r.valuation_index) ∘
      fun jv : Nat × ValuationRecord => valuation_to_row pid (jv.1 + 1) jv.2) =
      (fun jv : Nat × ValuationRecord => jv.1 + 1) := rfl
  rw [this]
  have comp : (fun jv : Nat × ValuationRecord => jv.1 + 1) =
      ((fun n => n + 1) ∘ Prod.fst) := rfl
  rw [comp, ← List.map_map, List.enum_map_fst, List.range'_eq_map_range]
  apply List.map_congr_left
  intro a _
  omega

lemma hoa_rows_of_indices (pid : Nat) (p : Property) :
    (hoa_rows_of pid p).map (fun r => r.hoa_index) =
      List.range' 1 p.hoa.length := by
  unfold hoa_rows_of
  rw [List.map_map]
  have : ((fun r : HoaRow => r.hoa_index) ∘
      fun jh : Nat × HOARecord => hoa_to_row pid (jh.1 + 1) jh.2) =
      ((fun n => n + 1) ∘ Prod.fst) := rfl
  rw [this, ← List.map_map, List.enum_map_fst, List.range'_eq_map_range]
  apply List.map_congr_left
  intro a _
  omega

lemma not_pyspace_of_digit {c : Char} (h : c.isDigit = true) : isPySpace c = false := by
  have h1 : c ≠ ' ' := by rintro rfl; exact absurd h (by decide)
  have h2 : c ≠ '\x09' := by rintro rfl; exact absurd h (by decide)
  have h3 : c ≠ '\x0a' := by rintro rfl; exact absurd h (by decide)
  have h4 : c ≠ '\x0d' := by rintro rfl; exact absurd h (by decide)
  have h5 : c ≠ '\x0b' := by rintro rfl; exact absurd h (by decide)
  have h6 : c ≠ '\x0c' := by rintro rfl; exact absurd h (by decide)
  simp [isPySpace, h1, h2, h3, h4, h5, h6]

lemma parsePyFloat_all_dots (cs : List Char) (h : cs.all (fun c => c = '.') = true) :
    parsePyFloat cs = none := by
  simp [parsePyFloat, h]

/-- A string with no digit characters coerces `sqft_total` to absent. -/
lemma clean_str_no_digit (s : String) (h : ∀ c ∈ s.data, c.isDigit = false) :
    clean_sqft_total (JValue.str s) = none := by
  unfold clean_sqft_total
  have hdots : ∀ c ∈ s.data.filter (fun c => c.isDigit || c = '.'), c = '.' := by
    intro c hc
    rw [List.mem_filter] at hc
    obtain ⟨hmem, hcls⟩ := hc
    have := h c hmem
    simp [this] at hcls
    exact hcls
  by_cases hemp : (s.data.filter (fun c => c.isDigit || c = '.')).isEmpty
  · simp [hemp]
  · simp only [hemp, if_false, Bool.false_eq_true]
    apply parsePyFloat_all_dots
    rw [List.all_eq_true]
    intro c hc
    simp [hdots c hc]

lemma rehab_rows_of_indices (pid : Nat) (p : Property) :
    (rehab_rows_of pid p).map (fun r => r.rehab_index) =
      List.range' 1 p.rehab.length := by
  unfold rehab_rows_of
  rw [List.map_map]
  have : ((fun r : RehabRow => r.rehab_index) ∘
      fun jr : Nat × RehabRecord => rehab_to_row pid (jr.1 + 1) jr.2) =
      ((fun n => n + 1) ∘ Prod.fst) := rfl
  rw [this, ← List.map_map, List.enum_map_fst, List.range'_eq_map_range]
  apply List.map_congr_left
  intro a _
  omega

/-! ### Batch-loop lemmas -/

lemma processRecords_skip_closed {α β ε : Type _} (validate : α → Except ε β)
    (rs : List α) : ∀ (idx : Nat) (valids : List β) (invalids : List (InvalidRecord α ε)),
    processRecords validate true idx rs valids invalids =
      .ok (valids ++ rs.filterMap (fun r => exceptToOption (validate r)),
        invalids ++ (List.enumFrom idx rs).filterMap (fail_entry validate)) := by
  induction rs with
  | nil => intro idx valids invalids; simp [processRecords]
  | cons r rs ih =>
    intro idx valids invalids
    rw [List.enumFrom]
    cases hv : validate r with
    | ok p =>
      simp only [processRecords, hv]
      rw [ih]
      simp [List.filterMap_cons, exceptToOption, hv, fail_entry]
    | error e =>
      simp only [processRecords, hv, if_true]
      rw [ih]
      simp [List.filterMap_cons, exceptToOption, hv, fail_entry]

lemma fail_entry_index_lb {α β ε : Type _} (validate : α → Except ε β) (rs : List α) :
    ∀ (idx : Nat) (x : InvalidRecord α ε),
      x ∈ (List.enumFrom idx rs).filterMap (fail_entry validate) → idx ≤ x.record_index := by
  induction rs with
  | nil => intro idx x hx; simp at hx
  | cons r rs ih =>
    intro idx x hx
    rw [List.enumFrom, List.filterMap_cons] at hx
    cases hf : fail_entry validate (idx, r) with
    | none =>
      rw [hf] at hx
      have := ih (idx + 1) x hx
      omega
    | some y =>
      rw [hf] at hx
      rcases List.mem_cons.mp hx with rfl | hx
      · unfold fail_entry at hf
        cases hv : validate r with
        | ok p => rw [hv] at hf; simp at hf
        | error e =>
          rw [hv] at hf
          simp only [Option.some.injEq] at hf
          rw [← hf]
      · have := ih (idx + 1) x hx
        omega

lemma fail_entry_chain {α β ε : Type _} (validate : α → Except ε β) (rs : List α) :
    ∀ idx : Nat,
      List.Chain' (· < ·)
        (((List.enumFrom idx rs).filterMap (fail_entry validate)).map
          (fun x => x.record_index)) := by
  induction rs with
  | nil => intro idx; simp
  | cons r rs ih =>
    intro idx
    rw [List.enumFrom, List.filterMap_cons]
    cases hf : fail_entry validate (idx, r) with
    | none => exact ih (idx + 1)
    | some y =>
      rw [List.map_cons]
      rw [List.chain'_cons']
      refine ⟨?_, ih (idx + 1)⟩
      intro b hb
      have hyidx : y.record_index = idx := by
        unfold fail_entry at hf
        cases hv : validate r with
        | ok p => rw [hv] at hf; simp at hf
        | error e => rw [hv] at hf; simp only [Option.some.injEq] at hf; rw [← hf]
      rw [hyidx]
      rcases List.mem_map.mp (List.mem_of_mem_head? hb) with ⟨x, hx, rfl⟩
      have := fail_entry_index_lb validate rs (idx + 1) x hx
      omega

lemma skip_lengths {α β ε : Type _} (validate : α → Except ε β) (rs : List α) :
    ∀ idx : Nat,
      (rs.filterMap (fun r => exceptToOption (validate r))).length +
        ((List.enumFrom idx rs).filterMap (fail_entry validate)).length = rs.length := by
  induction rs with
  | nil => intro idx; simp
  | cons r rs ih =>
    intro idx
    have hrec := ih (idx + 1)
    rw [List.enumFrom, List.filterMap_cons, List.filterMap_cons]
    cases hv : validate r with
    | ok p =>
      simp only [exceptToOption, hv, fail_entry] at hrec ⊢
      simp only [List.length_cons]
      omega
    | error e =>
      simp only [exceptToOption, hv, fail_entry] at hrec ⊢
      simp only [List.length_cons]
      omega

lemma processRecords_stop_error {α β ε : Type _} (validate : α → Except ε β)
    (pre : List α) (x : α) (post : List α) (e : ε)
    (hpre : ∀ r ∈ pre, exceptIsOk (validate r) = true) (hx : validate x = .error e) :
    ∀ (idx : Nat) (valids : List β) (invalids : List (InvalidRecord α ε)),
      processRecords validate false idx (pre ++ x :: post) valids invalids = .error e := by
  induction pre with
  | nil =>
    intro idx valids invalids
    rw [List.nil_append, processRecords, hx]
    rfl
  | cons r pre ih =>
    intro idx valids invalids
    have hr := hpre r (List.mem_cons_self r pre)
    cases hv : validate r with
    | error e' => rw [hv] at hr; simp [exceptIsOk] at hr
    | ok p =>
      rw [List.cons_append, processRecords, hv]
      exact ih (fun r' hr' => hpre r' (List.mem_cons_of_mem r hr')) (idx + 1) _ _

lemma processRecords_all_ok {α β ε : Type _} (validate : α → Except ε β) (pre : List α)
    (hpre : ∀ r ∈ pre, exceptIsOk (validate r) = true) :
    ∀ (idx : Nat) (valids : List β) (invalids : List (InvalidRecord α ε)),
      processRecords validate false idx pre valids invalids =
        .ok (valids ++ pre.filterMap (fun r => exceptToOption (validate r)), invalids) := by
  induction pre with
  | nil => intro idx valids invalids; simp [processRecords]
  | cons r pre ih =>
    intro idx valids invalids
    have hr := hpre r (List.mem_cons_self r pre)
    cases hv : validate r with
    | error e' => rw [hv] at hr; simp [exceptIsOk] at hr
    | ok p =>
      simp only [processRecords, hv]
      rw [ih (fun r' hr' => hpre r' (List.mem_cons_of_mem r hr'))]
      simp [List.filterMap_cons, exceptToOption, hv]

/-! ### Dimension-extractor lemmas -/

/-- The market value a row contributes, if any (`if prop.get("market")`). -/
def market_value (r : PropertyRow) : Option String :=
  match r.market with
  | some s => if s ≠ "" then some s else none
  | none => none

/-- The source value a row contributes, if any. -/
def source_value (r : PropertyRow) : Option String :=
  match r.source with
  | some s => if s ≠ "" then some s else none
  | none => none

/-- The property-type value a row contributes, if any (the field is
required, so only emptiness is checked). -/
def ptype_value (r : PropertyRow) : Option String :=
  if r.property_type ≠ "" then some r.property_type else none

/-- The layout value a row contributes, if any. -/
def layout_value (r : PropertyRow) : Option String :=
  match r.layout with
  | some s => if s ≠ "" then some s else none
  | none => none

lemma dim_step_markets (d : Dimensions) (row : PropertyRow) :
    (dim_step d row).markets =
      match market_value row with
      | some v => insert v d.markets
      | none => d.markets := by
  simp only [dim_step, market_value]
  cases row.market <;> cases row.source <;> cases row.layout <;> dsimp only <;> split_ifs <;> rfl

lemma dim_step_sources (d : Dimensions) (row : PropertyRow) :
    (dim_step d row).sources =
      match source_value row with
      | some v => insert v d.sources
      | none => d.sources := by
  simp only [dim_step, source_value]
  cases row.market <;> cases row.source <;> cases row.layout <;> dsimp only <;> split_ifs <;> rfl

lemma dim_step_ptypes (d : Dimensions) (row : PropertyRow) :
    (dim_step d row).property_types =
      match ptype_value row with
      | some v => insert v d.property_types
      | none => d.property_types := by
  simp only [dim_step, ptype_value]
  cases row.market <;> cases row.source <;> cases row.layout <;> dsimp only <;> split_ifs <;> rfl

lemma dim_step_layouts (d : Dimensions) (row : PropertyRow) :
    (dim_step d row).layouts =
      match layout_value row with
      | some v => insert v d.layouts
      | none => d.layouts := by
  simp only [dim_step, layout_value]
  cases row.market <;> cases row.source <;> cases row.layout <;> dsimp only <;> split_ifs <;> rfl

lemma mem_markets_foldl (rows : List PropertyRow) :
    ∀ (init : Dimensions) (s : String),
      s ∈ (rows.foldl dim_step init).markets ↔
        s ∈ init.markets ∨ ∃ r ∈ rows, market_value r = some s := by
  induction rows with
  | nil => intro init s; simp
  | cons row rows ih =>
    intro init s
    rw [List.foldl_cons, ih, dim_step_markets]
    cases hm : market_value row with
    | none =>
      simp only [List.mem_cons]
      constructor
      · rintro (h | ⟨r, hr, hrs⟩)
        · exact Or.inl h
        · exact Or.inr ⟨r, Or.inr hr, hrs⟩
      · rintro (h | ⟨r, (rfl | hr), hrs⟩)
        · exact Or.inl h
        · rw [hm] at hrs; exact absurd hrs (by simp)
        · exact Or.inr ⟨r, hr, hrs⟩
    | some v =>
      simp only [Finset.mem_insert, List.mem_cons]
      constructor
      · rintro ((rfl | h) | ⟨r, hr, hrs⟩)
        · exact Or.inr ⟨row, Or.inl rfl, by rw [hm]⟩
        · exact Or.inl h
        · exact Or.inr ⟨r, Or.inr hr, hrs⟩
      · rintro (h | ⟨r, (rfl | hr), hrs⟩)
        · exact Or.inl (Or.inr h)
        · rw [hm] at hrs
          injection hrs with hv
          exact Or.inl (Or.inl hv.symm)
        · exact Or.inr ⟨r, hr, hrs⟩

lemma mem_sources_foldl (rows : List PropertyRow) :
    ∀ (init : Dimensions) (s : String),
      s ∈ (rows.foldl dim_step init).sources ↔
        s ∈ init.sources ∨ ∃ r ∈ rows, source_value r = some s := by
  induction rows with
  | nil => intro init s; simp
  | cons row rows ih =>
    intro init s
    rw [List.foldl_cons, ih, dim_step_sources]
    cases hm : source_value row with
    | none =>
      simp only [List.mem_cons]
      constructor
      · rintro (h | ⟨r, hr, hrs⟩)
        · exact Or.inl h
        · exact Or.inr ⟨r, Or.inr hr, hrs⟩
      · rintro (h | ⟨r, (rfl | hr), hrs⟩)
        · exact Or.inl h
        · rw [hm] at hrs; exact absurd hrs (by simp)
        · exact Or.inr ⟨r, hr, hrs⟩
    | some v =>
      simp only [Finset.mem_insert, List.mem_cons]
      constructor
      · rintro ((rfl | h) | ⟨r, hr, hrs⟩)
        · exact Or.inr ⟨row, Or.inl rfl, by rw [hm]⟩
        · exact Or.inl h
        · exact Or.inr ⟨r, Or.inr hr, hrs⟩
      · rintro (h | ⟨r, (rfl | hr), hrs⟩)
        · exact Or.inl (Or.inr h)
        · rw [hm] at hrs
          injection hrs with hv
          exact Or.inl (Or.inl hv.symm)
        · exact Or.inr ⟨r, hr, hrs⟩

lemma mem_ptypes_foldl (rows : List PropertyRow) :
    ∀ (init : Dimensions) (s : String),
      s ∈ (rows.foldl dim_step init).property_types ↔
        s ∈ init.property_types ∨ ∃ r ∈ rows, ptype_value r = some s := by
  induction rows with
  | nil => intro init s; simp
  | cons row rows ih =>
    intro init s
    rw [List.foldl_cons, ih, dim_step_ptypes]
    cases hm : ptype_value row with
    | none =>
      simp only [List.mem_cons]
      constructor
      · rintro (h | ⟨r, hr, hrs⟩)
        · exact Or.inl h
        · exact Or.inr ⟨r, Or.inr hr, hrs⟩
      · rintro (h | ⟨r, (rfl | hr), hrs⟩)
        · exact Or.inl h
        · rw [hm] at hrs; exact absurd hrs (by simp)
        · exact Or.inr ⟨r, hr, hrs⟩
    | some v =>
      simp only [Finset.mem_insert, List.mem_cons]
      constructor
      · rintro ((rfl | h) | ⟨r, hr, hrs⟩)
        · exact Or.inr ⟨row, Or.inl rfl, by rw [hm]⟩
        · exact Or.inl h
        · exact Or.inr ⟨r, Or.inr hr, hrs⟩
      · rintro (h | ⟨r, (rfl | hr), hrs⟩)
        · exact Or.inl (Or.inr h)
        · rw [hm] at hrs
          injection hrs with hv
          exact Or.inl (Or.inl hv.symm)
        · exact Or.inr ⟨r, hr, hrs⟩

lemma mem_layouts_foldl (rows : List PropertyRow) :
    ∀ (init : Dimensions) (s : String),
      s ∈ (rows.foldl dim_step init).layouts ↔
        s ∈ init.layouts ∨ ∃ r ∈ rows, layout_value r = some s := by
  induction rows with
  | nil => intro init s; simp
  | cons row rows ih =>
    intro init s
    rw [List.foldl_cons, ih, dim_step_layouts]
    cases hm : layout_value row with
    | none =>
      simp only [List.mem_cons]
      constructor
      · rintro (h | ⟨r, hr, hrs⟩)
        · exact Or.inl h
        · exact Or.inr ⟨r, Or.inr hr, hrs⟩
      · rintro (h | ⟨r, (rfl | hr), hrs⟩)
        · exact Or.inl h
        · rw [hm] at hrs; exact absurd hrs (by simp)
        · exact Or.inr ⟨r, hr, hrs⟩
    | some v =>
      simp only [Finset.mem_insert, List.mem_cons]
      constructor
      · rintro ((rfl | h) | ⟨r, hr, hrs⟩)
        · exact Or.inr ⟨row, Or.inl rfl, by rw [hm]⟩
        · exact Or.inl h
        · exact Or.inr ⟨r, Or.inr hr, hrs⟩
      · rintro (h | ⟨r, (rfl | hr), hrs⟩)
        · exact Or.inl (Or.inr h)
        · rw [hm] at hrs
          injection hrs with hv
          exact Or.inl (Or.inl hv.symm)
        · exact Or.inr ⟨r, hr, hrs⟩

lemma market_value_eq_some (r : PropertyRow) (s : String) :
    market_value r = some s ↔ r.market = some s ∧ s ≠ "" := by
  unfold market_value
  cases hm : r.market with
  | none => simp
  | some v =>
    dsimp only
    split_ifs with hv
    · constructor
      · intro h; injection h with h; exact ⟨by rw [h], by rw [← h]; exact hv⟩
      · intro ⟨h, _⟩; injection h with h; rw [h]
    · constructor
      · intro h; exact absurd h (by simp)
      · intro ⟨h, hs⟩
        injection h with h
        rw [← h] at hs
        exact absurd hs hv

lemma source_value_eq_some (r : PropertyRow) (s : String) :
    source_value r = some s ↔ r.source = some s ∧ s ≠ "" := by
  unfold source_value
  cases hm : r.source with
  | none => simp
  | some v =>
    dsimp only
    split_ifs with hv
    · constructor
      · intro h; injection h with h; exact ⟨by rw [h], by rw [← h]; exact hv⟩
      · intro ⟨h, _⟩; injection h with h; rw [h]
    · constructor
      · intro h; exact absurd h (by simp)
      · intro ⟨h, hs⟩
        injection h with h
        rw [← h] at hs
        exact absurd hs hv

lemma ptype_value_eq_some (r : PropertyRow) (s : String) :
    ptype_value r = some s ↔ r.property_type = s ∧ s ≠ "" := by
  unfold ptype_value
  split_ifs with hv
  · constructor
    · intro h; injection h with h; exact ⟨h, by rw [← h]; exact hv⟩
    · intro ⟨h, _⟩; rw [h]
  · constructor
    · intro h; exact absurd h (by simp)
    · intro ⟨h, hs⟩
      rw [← h] at hs
      exact absurd hs hv

lemma layout_value_eq_some (r : PropertyRow) (s : String) :
    layout_value r = some s ↔ r.layout = some s ∧ s ≠ "" := by
  unfold layout_value
  cases hm : r.layout with
  | none => simp
  | some v =>
    dsimp only
    split_ifs with hv
    · constructor
      · intro h; injection h with h; exact ⟨by rw [h], by rw [← h]; exact hv⟩
      · intro ⟨h, _⟩; injection h with h; rw [h]
    · constructor
      · intro h; exact absurd h (by simp)
      · intro ⟨h, hs⟩
        injection h with h
        rw [← h] at hs
        exact absurd hs hv

/-! ### Sample data for witnesses -/

/-- Sample validated property with two valuations, no HOA entries, one
rehab entry. -/
def sampleProp1 : Property :=
  { property_title := "A", address := "1 Main St", street_address := "1 Main St",
    city := "Springfield", state := "IL", zip_code := "62704",
    latitude := 1, longitude := 2, property_type := "SFR",
    valuation := [{}, { list_price := some 100 }], rehab := [{}] }

/-- Sample validated property with one HOA entry and no valuations. -/
def sampleProp2 : Property :=
  { property_title := "B", address := "2 Oak Ave", street_address := "2 Oak Ave",
    city := "Austin", state := "TX", zip_code := "73301",
    latitude := 3, longitude := 4, property_type := "MF",
    hoa := [{ hoa_amount := some 50, hoa_flag := some "YES" }] }

/-- Fact row with market Dallas. -/
def dimRowA : PropertyRow :=
  { property_title := "A", address := "1", street_address := "1",
    city := "Dallas", state := "TX", zip_code := "75201",
    latitude := 1, longitude := 2, property_type := "SFR",
    market := some "Dallas" }

/-- Second fact row with duplicate market Dallas. -/
def dimRowB : PropertyRow :=
  { property_title := "B", address := "2", street_address := "2",
    city := "Dallas", state := "TX", zip_code := "75202",
    latitude := 3, longitude := 4, property_type := "SFR",
    market := some "Dallas" }

/-- Third fact row with market Austin. -/
def dimRowC : PropertyRow :=
  { property_title := "C", address := "3", street_address := "3",
    city := "Austin", state := "TX", zip_code := "73301",
    latitude := 5, longitude := 6, property_type := "MF",
    market := some "Austin" }

/-- Fact set holding the three sample rows. -/
def dimFactsA : Facts := { properties := [dimRowA, dimRowB, dimRowC] }

/-- Same `properties` rows but a different `valuations` list, to show the
dimension sets depend on the `properties` rows alone. -/
def dimFactsB : Facts :=
  { properties := [dimRowA, dimRowB, dimRowC],
    valuations := [valuation_to_row 1 1 {}] }

/-! ### Claims -/

/-- Claim C3, counterexample: the Property-level yes/no validator
`normalize_yes_no_flags` does NOT coerce a non-yes/no string to absent —
it returns the value unchanged, so `pool = "maybe"` validates to the
string `"maybe"`, not to `None` as the claim states. -/
theorem flag_absent_coercion_counterexample :
    normalize_yes_no_flags (JValue.str "maybe") = JValue.str "maybe" ∧
    coerceOptStr (normalize_yes_no_flags (JValue.str "maybe")) = Except.ok (some "maybe") ∧
    (some "maybe" : Option String) ≠ none := by
  refine ⟨rfl, rfl, by decide⟩

/-- Claim C3, amended: the child-record flag validators (`HOARecord`'s
`validate_flag` and `RehabRecord`'s `normalize_flags`) coerce any input
whose stripped uppercase form is not `YES`/`NO` to absent without error and
normalize yes/no to the canonical uppercase tokens; the Property-level
validator `normalize_yes_no_flags` normalizes yes/no to the canonical
tokens but passes any other string through UNCHANGED (still without a
validation error for string inputs). -/
theorem flag_normalization_amended (v : JValue) :
    (validate_flag v = none ∨ validate_flag v = some "YES" ∨ validate_flag v = some "NO") ∧
    normalize_flags v = validate_flag v ∧
    (∀ s : String, v = JValue.str s →
      (pyUpper (pyStrip s) = "YES" ∨ pyUpper (pyStrip s) = "NO" →
        validate_flag v = some (pyUpper (pyStrip s)) ∧
        normalize_yes_no_flags v = JValue.str (pyUpper (pyStrip s))) ∧
      (pyUpper (pyStrip s) ≠ "YES" → pyUpper (pyStrip s) ≠ "NO" →
        validate_flag v = none ∧
        normalize_yes_no_flags v = JValue.str s ∧
        coerceOptStr (normalize_yes_no_flags v) = Except.ok (some s))) := by
  refine ⟨?_, ?_, ?_⟩
  · cases v with
    | str s =>
      by_cases hm : pyUpper (pyStrip s) ∈ (["YES", "NO"] : List String)
      · simp only [validate_flag, hm, if_true]
        simp only [List.mem_cons, List.mem_singleton, List.not_mem_nil, or_false] at hm
        rcases hm with h | h
        · right; left; rw [h]
        · right; right; rw [h]
      · simp [validate_flag, hm]
    | null => left; rfl
    | bool b => left; rfl
    | num q => left; rfl
    | arr xs => left; rfl
    | obj fields => left; rfl
  · cases v <;> rfl
  · intro s hs
    subst hs
    constructor
    · intro hyesno
      have hm : pyUpper (pyStrip s) ∈ (["YES", "NO"] : List String) := by
        rcases hyesno with h | h <;> simp [h]
      exact ⟨by simp [validate_flag, hm], by simp [normalize_yes_no_flags, hm]⟩
    · intro hy hn
      have hm : pyUpper (pyStrip s) ∉ (["YES", "NO"] : List String) := by
        simp [hy, hn]
      exact ⟨by simp [validate_flag, hm], by simp [normalize_yes_no_flags, hm],
        by simp [normalize_yes_no_flags, hm, coerceOptStr]⟩

/-- Witness for C3's amended theorem at concrete inputs: `" yes "`
normalizes to `YES` under all three validators, and `"maybe"` coerces to
absent for child flags while passing through unchanged at Property level. -/
theorem flag_normalization_amended_witness :
    (pyUpper (pyStrip " yes ") = "YES" ∨ pyUpper (pyStrip " yes ") = "NO") ∧
    validate_flag (JValue.str " yes ") = some (pyUpper (pyStrip " yes ")) ∧
    normalize_yes_no_flags (JValue.str " yes ") = JValue.str (pyUpper (pyStrip " yes ")) ∧
    validate_flag (JValue.str "maybe") = none ∧
    normalize_yes_no_flags (JValue.str "maybe") = JValue.str "maybe" := by
  have h1 := ((flag_normalization_amended (JValue.str " yes ")).2.2 " yes " rfl).1
    (Or.inl (by decide))
  have h2 := ((flag_normalization_amended (JValue.str "maybe")).2.2 "maybe" rfl).2
    (by decide) (by decide)
  exact ⟨Or.inl (by decide), h1.1, h1.2, h2.1, h2.2.1⟩

/-- Claim C4, counterexample: the strip-and-parse string coercion is NOT
applied to every numeric field — `taxes` has no cleaning validator, so the
string `"5649 sqft"` is a `float_parsing` field error there, while the
same string coerces to `5649.0` on `sqft_total` (the only field carrying
`clean_sqft_total`). -/
theorem numeric_strip_coercion_counterexample :
    validateTaxes (JValue.str "5649 sqft") = Except.error "float_parsing" ∧
    validateTaxes (JValue.str "5649 sqft") ≠ Except.ok (some 5649) ∧
    clean_sqft_total (JValue.str "5649 sqft") = some 5649 := by
  refine ⟨by decide, ?_, by decide⟩
  intro h
  rw [show validateTaxes (JValue.str "5649 sqft") = Except.error "float_parsing" from by decide] at h
  exact absurd h (by simp)

/-- Claim C4, amended: only the `SQFT_Total` field is coerced by stripping
non-digit/non-decimal-point characters (its validator `clean_sqft_total`);
there, a string yielding no digits coerces to absent rather than failing,
and `"5649 sqft"` validates to `5649.0`.  Other numeric fields (here
`taxes`) parse strings as plain float literals and reject non-numeric
strings as field errors. -/
theorem sqft_total_strip_coercion_amended (s : String)
    (hnodigit : ∀ c ∈ s.data, c.isDigit = false) :
    clean_sqft_total (JValue.str s) = none ∧
    clean_sqft_total (JValue.str "5649 sqft") = some 5649 ∧
    validateTaxes (JValue.str "100 usd") = Except.error "float_parsing" ∧
    validateTaxes (JValue.num 100) = Except.ok (some 100) := by
  exact ⟨clean_str_no_digit s hnodigit, by decide, by decide, by decide⟩

/-- Witness for C4's amended theorem at the no-digit string `"n/a"`. -/
theorem sqft_total_strip_coercion_amended_witness :
    (∀ c ∈ "n/a".data, c.isDigit = false) ∧
    clean_sqft_total (JValue.str "n/a") = none ∧
    clean_sqft_total (JValue.str "5649 sqft") = some 5649 := by
  have h := sqft_total_strip_coercion_amended "n/a" (by decide)
  exact ⟨by decide, h.1, h.2.1⟩

/-- Claim C5 (code bug): on the input `\x7bBed: 3\x7d` the unquoted-key
rule fires once and logs one entry, but its replacement — the source
f-string `'\x7b\x7b""\x7bkey\x7d":'` — inserts TWO quote characters before
the key instead of wrapping the key in quotes, yielding the invalid text
`\x7b""Bed": 3\x7d` instead of the intended `\x7b"Bed": 3\x7d`. -/
theorem unquoted_key_repair_bug :
    fix_unquoted_key "\x7bBed: 3\x7d" =
      ("\x7b\"\"Bed\": 3\x7d", ["Quoted unquoted key: Bed"]) ∧
    repair_bareword_values "\x7bBed: 3\x7d" =
      ("\x7b\"\"Bed\": 3\x7d", ["Quoted unquoted key: Bed"]) ∧
    ("\x7b\"\"Bed\": 3\x7d" : String) ≠ "\x7b\"Bed\": 3\x7d" := by
  refine ⟨by decide, by decide, by decide⟩

/-- Claim C6, counterexample: the bare-stray-number rule has no notion of
object context — on the well-formed array `[1, 2, 3]` it deletes the
numeric element `2`. -/
theorem bare_number_removal_array_counterexample :
    fix_bare_number "[1, 2, 3]" = ("[1, 3]", ["Removed bare number in object: 2"]) ∧
    (fix_bare_number "[1, 2, 3]").1 ≠ "[1, 2, 3]" := by
  refine ⟨by decide, by decide⟩

/-- Claim C6, amended: the rule deletes a bare numeric token between a
comma and a following comma-or-closing-brace delimiter PURELY TEXTUALLY,
with no object-context check: the matcher fires on any
`, <digits> ,`/`, <digits> \x7d` occurrence, so numeric elements of a
well-formed array can be deleted (`[1, 2, 3]` loses its middle element);
only an element directly before `]` survives, because `]` is not in the
delimiter class. -/
theorem bare_number_removal_amended (digits rest : List Char)
    (hne : digits ≠ []) (hdig : ∀ c ∈ digits, c.isDigit = true) :
    matchBareNumber (',' :: (digits ++ ',' :: rest)) =
      some ([','], ["Removed bare number in object: " ++ String.mk digits],
        1 + digits.length + 1) ∧
    fix_bare_number "[1, 2, 3]" = ("[1, 3]", ["Removed bare number in object: 2"]) ∧
    fix_bare_number "[1, 2]" = ("[1, 2]", []) := by
  refine ⟨?_, by decide, by decide⟩
  obtain ⟨d, ds, rfl⟩ : ∃ d ds, digits = d :: ds := by
    cases digits with
    | nil => exact absurd rfl hne
    | cons d ds => exact ⟨d, ds, rfl⟩
  have hd : d.isDigit = true := hdig d (List.mem_cons_self d ds)
  have hws : ((d :: ds) ++ ',' :: rest).takeWhile isPySpace = [] := by
    simp [List.takeWhile_cons, not_pyspace_of_digit hd]
  have hws' : ((d :: ds) ++ ',' :: rest).dropWhile isPySpace = (d :: ds) ++ ',' :: rest := by
    simp [List.dropWhile_cons, not_pyspace_of_digit hd]
  have htake : ((d :: ds) ++ ',' :: rest).takeWhile Char.isDigit = d :: ds := by
    rw [List.takeWhile_append_of_pos hdig]
    simp [List.takeWhile_cons]
  have hdrop : ((d :: ds) ++ ',' :: rest).dropWhile Char.isDigit = ',' :: rest := by
    rw [List.dropWhile_append_of_pos hdig]
    simp [List.dropWhile_cons]
  simp only [matchBareNumber, hws, hws', htake, hdrop]
  simp [isDelimCB, List.takeWhile_cons, List.dropWhile_cons, isPySpace]

/-- Witness for C6's amended theorem: the matcher fires on `", 2,"`
followed by arbitrary text — the exact shape occurring inside the array
`[1, 2, 3]`. -/
theorem bare_number_removal_amended_witness :
    (['2'] ≠ ([] : List Char)) ∧ (∀ c ∈ ['2'], c.isDigit = true) ∧
    matchBareNumber (',' :: (['2'] ++ ',' :: " 3]".data)) =
      some ([','], ["Removed bare number in object: " ++ String.mk ['2']],
        1 + (['2'] : List Char).length + 1) ∧
    fix_bare_number "[1, 2, 3]" = ("[1, 3]", ["Removed bare number in object: 2"]) := by
  have h := bare_number_removal_amended ['2'] " 3]".data (by decide) (by decide)
  exact ⟨by decide, by decide, h.1, h.2.1⟩

/-- Claim C8: each of the Bareword, Trailing-comma and Unquoted-key rules
is a no-op with an empty fix log on text in which its pattern does not
occur (text that already satisfies the rule's target shape, e.g. all keys
and barewords already quoted and no trailing commas). -/
theorem repair_rules_noop_on_clean_text (s : String)
    (h1 : hasMatchAux matchBareword s.data = false)
    (h3 : hasMatchAux matchTrailingComma s.data = false)
    (h4 : hasMatchAux matchUnquotedKey s.data = false) :
    fix_any_bareword s = (s, []) ∧
    fix_trailing_comma s = (s, []) ∧
    fix_unquoted_key s = (s, []) :=
  ⟨runPass_no_match matchBareword s h1, runPass_no_match matchTrailingComma s h3,
    runPass_no_match matchUnquotedKey s h4⟩

/-- Witness for C8 on a well-formed object with quoted keys and values,
no trailing comma. -/
theorem repair_rules_noop_witness :
    (hasMatchAux matchBareword "\x7b\"City\": \"Springfield\", \"Bed\": 3\x7d".data = false) ∧
    (hasMatchAux matchTrailingComma "\x7b\"City\": \"Springfield\", \"Bed\": 3\x7d".data = false) ∧
    (hasMatchAux matchUnquotedKey "\x7b\"City\": \"Springfield\", \"Bed\": 3\x7d".data = false) ∧
    fix_any_bareword "\x7b\"City\": \"Springfield\", \"Bed\": 3\x7d" =
      ("\x7b\"City\": \"Springfield\", \"Bed\": 3\x7d", []) ∧
    fix_trailing_comma "\x7b\"City\": \"Springfield\", \"Bed\": 3\x7d" =
      ("\x7b\"City\": \"Springfield\", \"Bed\": 3\x7d", []) ∧
    fix_unquoted_key "\x7b\"City\": \"Springfield\", \"Bed\": 3\x7d" =
      ("\x7b\"City\": \"Springfield\", \"Bed\": 3\x7d", []) := by
  have h := repair_rules_noop_on_clean_text "\x7b\"City\": \"Springfield\", \"Bed\": 3\x7d"
    (by decide) (by decide) (by decide)
  exact ⟨by decide, by decide, by decide, h.1, h.2.1, h.2.2⟩

/-- Claim C2: in the default mode (`skip_invalid = True`) the batch loop
never raises; the valid-records list is exactly the in-order
`filterMap` of successful validations and the failure list the in-order
`filterMap` of failures with their 1-based indices (so one record's
failure never prevents later records from being processed and both lists
preserve input order); failure indices are strictly increasing, and every
input record lands in exactly one of the two lists. -/
theorem validateBatch_default_mode {α β ε : Type _} (validate : α → Except ε β)
    (records : List α) :
    load_properties_from_json validate none true records =
      .ok (records.filterMap (fun r => exceptToOption (validate r)),
        (List.enumFrom 1 records).filterMap (fail_entry validate)) ∧
    List.Chain' (· < ·)
      (((List.enumFrom 1 records).filterMap (fail_entry validate)).map
        (fun x => x.record_index)) ∧
    (records.filterMap (fun r => exceptToOption (validate r))).length +
      ((List.enumFrom 1 records).filterMap (fail_entry validate)).length =
        records.length := by
  refine ⟨?_, fail_entry_chain validate records 1, skip_lengths validate records 1⟩
  unfold load_properties_from_json
  rw [processRecords_skip_closed]
  simp

/-- Claim C7: with `skip_invalid = False` the first failing record makes
the loop raise that record's validation error immediately — the result is
the error no matter what records follow — while a prefix of records that
all validate is processed completely (running the loop on the prefix alone
returns all of them as valid with no failures). -/
theorem validateBatch_stop_on_first {α β ε : Type _} (validate : α → Except ε β)
    (pre : List α) (x : α) (post : List α) (e : ε)
    (hpre : ∀ r ∈ pre, exceptIsOk (validate r) = true)
    (hx : validate x = .error e) :
    load_properties_from_json validate none false (pre ++ x :: post) = .error e ∧
    load_properties_from_json validate none false pre =
      .ok (pre.filterMap (fun r => exceptToOption (validate r)), []) := by
  constructor
  · unfold load_properties_from_json
    exact processRecords_stop_error validate pre x post e hpre hx 1 [] []
  · unfold load_properties_from_json
    rw [processRecords_all_ok validate pre hpre]
    simp

/-- Witness for C7: records `[1, 2]` validate, record `9` fails with
`"too big"`, and the trailing record `[0]` is never reached. -/
theorem validateBatch_stop_on_first_witness :
    (∀ r ∈ [1, 2],
      exceptIsOk ((fun n : Nat => if n ≤ 2 then Except.ok n
        else Except.error "too big") r) = true) ∧
    ((fun n : Nat => if n ≤ 2 then Except.ok n else Except.error "too big") 9 =
      Except.error "too big") ∧
    load_properties_from_json
      (fun n : Nat => if n ≤ 2 then Except.ok n else Except.error "too big")
      none false ([1, 2] ++ 9 :: [0]) = Except.error "too big" ∧
    load_properties_from_json
      (fun n : Nat => if n ≤ 2 then Except.ok n else Except.error "too big")
      none false [1, 2] = Except.ok ([1, 2], []) := by
  have h := validateBatch_stop_on_first
    (fun n : Nat => if n ≤ 2 then Except.ok n else Except.error "too big")
    [1, 2] 9 [0] "too big" (by decide) (by decide)
  refine ⟨by decide, by decide, h.1, ?_⟩
  rw [h.2]
  decide

/-- Claim C10: `clean_sqft_total` is total — for every input value it
returns a number or absent and never fails: strings whose stripped
digit/dot remainder does not parse (`"1.2.3"`) give `None`, digit-free
strings give `None`, booleans go through `float(v)` (`float(True) = 1.0`),
and non-coercible containers give `None` via the caught `TypeError`. -/
theorem clean_sqft_total_never_fails :
    (∀ v : JValue, clean_sqft_total v = none ∨ ∃ q : Rat, clean_sqft_total v = some q) ∧
    (∀ s : String, (∀ c ∈ s.data, c.isDigit = false) → clean_sqft_total (JValue.str s) = none) ∧
    clean_sqft_total (JValue.str "1.2.3") = none ∧
    clean_sqft_total (JValue.bool true) = some 1 ∧
    (∀ xs, clean_sqft_total (JValue.arr xs) = none) ∧
    (∀ fields, clean_sqft_total (JValue.obj fields) = none) ∧
    clean_sqft_total JValue.null = none := by
  refine ⟨?_, clean_str_no_digit, by decide, by decide, fun xs => rfl, fun fields => rfl, rfl⟩
  intro v
  cases h : clean_sqft_total v with
  | none => exact Or.inl rfl
  | some q => exact Or.inr ⟨q, rfl⟩

/-- Claim C1: for every list of valid properties, (a) the `properties`
rows are the in-order images of the inputs; (b) every child row's
`property_id` is the 1-based position of some `properties` row; (c) the
child rows with `property_id = i + 1` are exactly the i-th property's
child records in their original order, so their count equals the source
child-list length and their local `<entity>_index` runs `1, 2, ...`. -/
theorem transform_facts_referential_integrity (props : List Property) :
    (transform_properties_to_facts props).properties = props.map property_to_row ∧
    (∀ r ∈ (transform_properties_to_facts props).valuations,
      1 ≤ r.property_id ∧
        r.property_id ≤ (transform_properties_to_facts props).properties.length) ∧
    (∀ r ∈ (transform_properties_to_facts props).hoa_fees,
      1 ≤ r.property_id ∧
        r.property_id ≤ (transform_properties_to_facts props).properties.length) ∧
    (∀ r ∈ (transform_properties_to_facts props).rehab_assessments,
      1 ≤ r.property_id ∧
        r.property_id ≤ (transform_properties_to_facts props).properties.length) ∧
    (∀ (i : Nat) (h : i < props.length),
      ((transform_properties_to_facts props).valuations.filter
          (fun r => r.property_id = i + 1) =
        val_rows_of (i + 1) (props.get ⟨i, h⟩)) ∧
      (((transform_properties_to_facts props).valuations.filter
          (fun r => r.property_id = i + 1)).length =
        (props.get ⟨i, h⟩).valuation.length) ∧
      (((transform_properties_to_facts props).valuations.filter
          (fun r => r.property_id = i + 1)).map (fun r => r.valuation_index) =
        List.range' 1 (props.get ⟨i, h⟩).valuation.length) ∧
      ((transform_properties_to_facts props).hoa_fees.filter
          (fun r => r.property_id = i + 1) =
        hoa_rows_of (i + 1) (props.get ⟨i, h⟩)) ∧
      (((transform_properties_to_facts props).hoa_fees.filter
          (fun r => r.property_id = i + 1)).length =
        (props.get ⟨i, h⟩).hoa.length) ∧
      (((transform_properties_to_facts props).hoa_fees.filter
          (fun r => r.property_id = i + 1)).map (fun r => r.hoa_index) =
        List.range' 1 (props.get ⟨i, h⟩).hoa.length) ∧
      ((transform_properties_to_facts props).rehab_assessments.filter
          (fun r => r.property_id = i + 1) =
        rehab_rows_of (i + 1) (props.get ⟨i, h⟩)) ∧
      (((transform_properties_to_facts props).rehab_assessments.filter
          (fun r => r.property_id = i + 1)).length =
        (props.get ⟨i, h⟩).rehab.length) ∧
      (((transform_properties_to_facts props).rehab_assessments.filter
          (fun r => r.property_id = i + 1)).map (fun r => r.rehab_index) =
        List.range' 1 (props.get ⟨i, h⟩).rehab.length)) := by
  have hc := transform_closed props
  have hlen : (transform_properties_to_facts props).properties.length = props.length := by
    rw [hc]; exact List.length_map props property_to_row
  have hvfilter : ∀ (i : Nat) (h : i < props.length),
      (transform_properties_to_facts props).valuations.filter
        (fun r => r.property_id = i + 1) = val_rows_of (i + 1) (props.get ⟨i, h⟩) := by
    intro i h
    rw [hc]
    have h2 := grouped_filter_eq val_rows_of (fun r => r.property_id) val_rows_pid props 1 i h
    rw [Nat.add_comm 1 i] at h2
    exact h2
  have hhfilter : ∀ (i : Nat) (h : i < props.length),
      (transform_properties_to_facts props).hoa_fees.filter
        (fun r => r.property_id = i + 1) = hoa_rows_of (i + 1) (props.get ⟨i, h⟩) := by
    intro i h
    rw [hc]
    have h2 := grouped_filter_eq hoa_rows_of (fun r => r.property_id) hoa_rows_pid props 1 i h
    rw [Nat.add_comm 1 i] at h2
    exact h2
  have hrfilter : ∀ (i : Nat) (h : i < props.length),
      (transform_properties_to_facts props).rehab_assessments.filter
        (fun r => r.property_id = i + 1) = rehab_rows_of (i + 1) (props.get ⟨i, h⟩) := by
    intro i h
    rw [hc]
    have h2 := grouped_filter_eq rehab_rows_of (fun r => r.property_id) rehab_rows_pid props 1 i h
    rw [Nat.add_comm 1 i] at h2
    exact h2
  refine ⟨by rw [hc], ?_, ?_, ?_, ?_⟩
  · intro r hr
    rw [hc] at hr
    have := grouped_pid_bounds val_rows_of (fun r => r.property_id) val_rows_pid props 1 r hr
    dsimp only at this
    rw [hlen]
    omega
  · intro r hr
    rw [hc] at hr
    have := grouped_pid_bounds hoa_rows_of (fun r => r.property_id) hoa_rows_pid props 1 r hr
    dsimp only at this
    rw [hlen]
    omega
  · intro r hr
    rw [hc] at hr
    have := grouped_pid_bounds rehab_rows_of (fun r => r.property_id) rehab_rows_pid props 1 r hr
    dsimp only at this
    rw [hlen]
    omega
  · intro i h
    refine ⟨hvfilter i h, ?_, ?_, hhfilter i h, ?_, ?_, hrfilter i h, ?_, ?_⟩
    · rw [hvfilter i h]
      simp [val_rows_of]
    · rw [hvfilter i h]
      exact val_rows_of_indices (i + 1) (props.get ⟨i, h⟩)
    · rw [hhfilter i h]
      simp [hoa_rows_of]
    · rw [hhfilter i h]
      exact hoa_rows_of_indices (i + 1) (props.get ⟨i, h⟩)
    · rw [hrfilter i h]
      simp [rehab_rows_of]
    · rw [hrfilter i h]
      exact rehab_rows_of_indices (i + 1) (props.get ⟨i, h⟩)

/-- Witness for C1 on two concrete properties: property 1 owns exactly its
two valuation rows (indices 1 and 2) and no HOA rows; a concrete
valuation row's surrogate key lies within the `properties` list. -/
theorem transform_facts_referential_integrity_witness :
    (0 < ([sampleProp1, sampleProp2] : List Property).length) ∧
    ((transform_properties_to_facts [sampleProp1, sampleProp2]).valuations.filter
        (fun r => r.property_id = 0 + 1) = val_rows_of (0 + 1) sampleProp1) ∧
    (((transform_properties_to_facts [sampleProp1, sampleProp2]).valuations.filter
        (fun r => r.property_id = 0 + 1)).length = 2) ∧
    (((transform_properties_to_facts [sampleProp1, sampleProp2]).valuations.filter
        (fun r => r.property_id = 0 + 1)).map (fun r => r.valuation_index) = [1, 2]) ∧
    (((transform_properties_to_facts [sampleProp1, sampleProp2]).hoa_fees.filter
        (fun r => r.property_id = 0 + 1)).length = 0) ∧
    (valuation_to_row 1 1 {} ∈ (transform_properties_to_facts [sampleProp1, sampleProp2]).valuations →
      1 ≤ (valuation_to_row 1 1 {}).property_id ∧
        (valuation_to_row 1 1 {}).property_id ≤
          (transform_properties_to_facts [sampleProp1, sampleProp2]).properties.length) := by
  have h := transform_facts_referential_integrity [sampleProp1, sampleProp2]
  have hi := h.2.2.2.2 0 (by decide)
  exact ⟨by decide, hi.1, hi.2.1, hi.2.2.1, hi.2.2.2.2.1,
    fun hmem => h.2.1 (valuation_to_row 1 1 {}) hmem⟩

/-- Claim C9: a string belongs to a dimension set exactly when some
`properties` row carries it as a present, non-empty value of the
corresponding field (so duplicates collapse and empty/absent values are
skipped), and the dimension sets are a function of the `properties` rows
alone. -/
theorem extract_dimension_values_spec :
    (∀ (facts : Facts) (s : String),
      (s ∈ (extract_dimension_values facts).markets ↔
        ∃ r ∈ facts.properties, r.market = some s ∧ s ≠ "") ∧
      (s ∈ (extract_dimension_values facts).sources ↔
        ∃ r ∈ facts.properties, r.source = some s ∧ s ≠ "") ∧
      (s ∈ (extract_dimension_values facts).property_types ↔
        ∃ r ∈ facts.properties, r.property_type = s ∧ s ≠ "") ∧
      (s ∈ (extract_dimension_values facts).layouts ↔
        ∃ r ∈ facts.properties, r.layout = some s ∧ s ≠ "")) ∧
    (∀ f g : Facts, f.properties = g.properties →
      extract_dimension_values f = extract_dimension_values g) := by
  constructor
  · intro facts s
    refine ⟨?_, ?_, ?_, ?_⟩
    · rw [extract_dimension_values, mem_markets_foldl]
      simp only [market_value_eq_some]
      constructor
      · rintro (h | h)
        · simp at h
        · exact h
      · intro h; exact Or.inr h
    · rw [extract_dimension_values, mem_sources_foldl]
      simp only [source_value_eq_some]
      constructor
      · rintro (h | h)
        · simp at h
        · exact h
      · intro h; exact Or.inr h
    · rw [extract_dimension_values, mem_ptypes_foldl]
      simp only [ptype_value_eq_some]
      constructor
      · rintro (h | h)
        · simp at h
        · exact h
      · intro h; exact Or.inr h
    · rw [extract_dimension_values, mem_layouts_foldl]
      simp only [layout_value_eq_some]
      constructor
      · rintro (h | h)
        · simp at h
        · exact h
      · intro h; exact Or.inr h
  · intro f g h
    unfold extract_dimension_values
    rw [h]

/-- Witness for C9 on markets Dallas, Dallas, Austin: the set contains
exactly the two distinct markets, and replacing the `valuations` list
leaves the dimension sets unchanged. -/
theorem extract_dimension_values_spec_witness :
    ("Dallas" ∈ (extract_dimension_values dimFactsA).markets) ∧
    ("Austin" ∈ (extract_dimension_values dimFactsA).markets) ∧
    ("Chicago" ∉ (extract_dimension_values dimFactsA).markets) ∧
    (dimFactsA.properties = dimFactsB.properties) ∧
    extract_dimension_values dimFactsA = extract_dimension_values dimFactsB := by
  have hD := (extract_dimension_values_spec.1 dimFactsA "Dallas").1
  have hA := (extract_dimension_values_spec.1 dimFactsA "Austin").1
  have hC := (extract_dimension_values_spec.1 dimFactsA "Chicago").1
  refine ⟨hD.mpr ⟨dimRowA, by simp [dimFactsA], rfl, by decide⟩,
    hA.mpr ⟨dimRowC, by simp [dimFactsA], rfl, by decide⟩, ?_, rfl,
    extract_dimension_values_spec.2 dimFactsA dimFactsB rfl⟩
  intro hc
  obtain ⟨r, hr, hms, -⟩ := hC.mp hc
  simp only [dimFactsA, List.mem_cons, List.not_mem_nil, or_false] at hr
  rcases hr with rfl | rfl | rfl
  · exact absurd hms (by simp [dimRowA])
  · exact absurd hms (by simp [dimRowB])
  · exact absurd hms (by simp [dimRowC])

/-- Witness for C10 at the digit-free string `"abc"` and a number. -/
theorem clean_sqft_total_never_fails_witness :
    (∀ c ∈ "abc".data, c.isDigit = false) ∧
    clean_sqft_total (JValue.str "abc") = none ∧
    (clean_sqft_total (JValue.num 7) = none ∨
      ∃ q : Rat, clean_sqft_total (JValue.num 7) = some q) := by
  exact ⟨by decide, clean_sqft_total_never_fails.2.1 "abc" (by decide),
    clean_sqft_total_never_fails.1 (JValue.num 7)⟩

end ETL
